import Mathlib

/-!
# TokenScope listing-detection and opportunity-scoring engine: a verification development

Shallow embedding of the core of the TokenScope backend:

* `backend/scanners/base_scanner.py` — set-diff new-listing detector (`detect_new_listings`,
  `scan`);
* `backend/scanners/main_scanner.py` — orchestrator per-venue result handling
  (`run_all_scanners`);
* `backend/services/price_aggregator.py` — cross-venue price aggregation with arbitrage
  computation (`get_all_prices`, `_get_gateio_price`);
* `backend/services/opportunity_detector.py` — opportunity classification, urgency
  assignment and strategy calculation (`analyze_listing`, `_classify_opportunity`,
  `_calculate_strategy`).

Modelling conventions:

* Python floats are modelled as exact rationals (`ℚ`); `round(x, n)` is modelled as
  `⌊x·10^n + 1/2⌋ / 10^n` (Python's tie-to-even differs only at exact half-way ties,
  which no statement below depends on).
* A Python expression that may raise is modelled in `Except`; a bare `except:` handler
  that maps any exception to a fixed value is modelled by collapsing the `Except.error`
  case to that value. `float` division by zero raises `ZeroDivisionError` in Python, so
  the embedded aggregator has an explicit error outcome for a zero divisor.
* Sets of trading-pair strings are `Finset String`. Python iterates a set in hash order;
  the embedding iterates the fetched list in first-occurrence order. Every statement
  proved below is insensitive to that order (counts, membership, final state).
-/

namespace TokenScope

/-! ## Opportunity classification (`opportunity_detector.py`)

`OpportunityDetector._classify_opportunity` is a pure function of the listing's source
exchange and the keys of the price snapshot's `prices` dict.  The urgency assignment in
`OpportunityDetector.analyze_listing` (lines 56–70) starts at `'NORMAL'`, overwrites to
`'HIGH'` when the listing is on Gate.io/MEXC and Binance is absent from the price map,
and finally overwrites to `'CRITICAL'` when the arbitrage profit percentage exceeds 2.0.
-/

/-- `_classify_opportunity(listing, price_data)`: `exchange = listing['exchange']`,
`prices = price_data.get('prices', {})`; `priceVenues` below are the keys of `prices`. -/
def classifyOpportunity (exchange : String) (priceVenues : List String) : String :=
  if (exchange = "Gate.io" ∨ exchange = "MEXC") ∧ "Binance" ∉ priceVenues then
    "PRE_BINANCE_LISTING"
  else if priceVenues.length > 1 then
    "ARBITRAGE"
  else if exchange = "Binance" then
    "BINANCE_LISTING"
  else
    "NEW_LISTING"

/-- The urgency field produced by `analyze_listing`: initialised to `'NORMAL'`,
set to `'HIGH'` under the Gate.io/MEXC-without-Binance condition, then overwritten to
`'CRITICAL'` when `arb.get('profit_pct', 0) > 2.0`. -/
def computeUrgency (exchange : String) (priceVenues : List String)
    (arbProfitPct : ℚ) : String :=
  let u := "NORMAL"
  let u := if (exchange = "Gate.io" ∨ exchange = "MEXC") ∧ "Binance" ∉ priceVenues then
    "HIGH" else u
  if arbProfitPct > 2 then "CRITICAL" else u

/-! ## Strategy calculation (`opportunity_detector.py`, `_calculate_strategy`) -/

/-- One side of `price_data['best_buy']` / `['best_sell']`: venue name and price. -/
structure BestSide where
  exchange : String
  price : ℚ
  deriving DecidableEq, Repr

/-- `round(x, 6)` on exact rationals. -/
def round6 (q : ℚ) : ℚ := (⌊q * 1000000 + 1/2⌋ : ℚ) / 1000000

/-- The strategy dict built by `_calculate_strategy` in the non-error case. -/
structure Strategy where
  entryExchange : Option String
  entryPrice : ℚ
  target1 : ℚ
  target2 : ℚ
  stopLoss : ℚ
  positionSize : String
  timeWindow : String
  deriving DecidableEq, Repr

/-- Result of `_calculate_strategy`: either `{'error': 'No valid entry price'}` or the
strategy dict. -/
inductive StratResult where
  | noValidEntry
  | strategy (s : Strategy)
  deriving DecidableEq, Repr

/-- `_calculate_strategy(listing, price_data, urgency)`.  `bestBuy` models
`price_data.get('best_buy', {})` (`none` when absent, in which case
`best_buy.get('price', 0)` yields `0` and `best_buy.get('exchange')` yields `None`). -/
def calculateStrategy (bestBuy : Option BestSide) (urgency : String) : StratResult :=
  let entryPrice := (bestBuy.map BestSide.price).getD 0
  if entryPrice = 0 then
    .noValidEntry
  else
    let targets :=
      if urgency = "CRITICAL" then
        (entryPrice * 1.50, entryPrice * 2.00, entryPrice * 0.85)
      else if urgency = "HIGH" then
        (entryPrice * 1.30, entryPrice * 1.60, entryPrice * 0.90)
      else
        (entryPrice * 1.20, entryPrice * 1.40, entryPrice * 0.92)
    .strategy
      { entryExchange := bestBuy.map BestSide.exchange
        entryPrice := entryPrice
        target1 := round6 targets.1
        target2 := round6 targets.2.1
        stopLoss := round6 targets.2.2
        positionSize := if urgency = "HIGH" then "2-3%" else "1-2%"
        timeWindow := if urgency = "HIGH" then "12-24 hours" else "24-48 hours" }

/-! ## Set-diff listing detection (`scanners/base_scanner.py`)

`BaseScanner` holds `last_scan_pairs: set` (initialised empty in `__init__`).
`detect_new_listings` fetches the current pair list, diffs it against
`last_scan_pairs`, returns early when the difference is empty, otherwise enriches each
new pair (catching any per-pair exception) and replaces `last_scan_pairs` with the
fetched set.  `scan` wraps `detect_new_listings` in a bare `try/except` that maps any
exception to the empty list.  The venue subclasses (Gate.io, MEXC, KuCoin) only supply
`fetch_all_pairs` / `get_pair_details`; the detection logic is exactly this shared code.

The embedding passes the two network-dependent calls in as explicit outcomes:
`fetchResult` is the outcome of `fetch_all_pairs()` (`Except.error` models a raised
exception), and `enrich pair` is the outcome of `get_pair_details(pair)` (`.error`
models a raised exception, `.ok none` a falsy return, which the `if details:` guard
skips).  The `'exchange'`/`'detected_at'` fields stamped onto the details dict, and
wall-clock timestamps generally, are outside the model. -/

/-- The details dict produced by a venue scanner's `get_pair_details`. -/
structure PairDetails where
  symbol : String
  pair : String
  price : ℚ
  volume24h : ℚ
  deriving DecidableEq, Repr

/-- Body of the per-pair enrichment loop in `detect_new_listings` (lines 66–74): a
successful, truthy `get_pair_details` appends the details; an exception or a falsy
result leaves the accumulator unchanged. -/
def enrichStep (enrich : String → Except Unit (Option PairDetails))
    (acc : List PairDetails) (pair : String) : List PairDetails :=
  match enrich pair with
  | .ok (some details) => acc ++ [details]
  | _ => acc

/-- Specification view of one enrichment: `some d` exactly when `get_pair_details`
returned the truthy dict `d`. -/
def enrichResult (enrich : String → Except Unit (Option PairDetails))
    (pair : String) : Option PairDetails :=
  match enrich pair with
  | .ok (some details) => some details
  | _ => none

/-- `BaseScanner.detect_new_listings`, with the fetch and per-pair enrichment outcomes
passed explicitly and the `last_scan_pairs` state threaded through.  A raised
`fetch_all_pairs` propagates (`.error`).  Python iterates the set `new_pairs` in hash
order; the embedding iterates the fetched list in first-occurrence order — every
statement proved below is insensitive to that order. -/
def detectNewListings (fetchResult : Except Unit (List String))
    (enrich : String → Except Unit (Option PairDetails))
    (lastScanPairs : Finset String) :
    Except Unit (List PairDetails × Finset String) :=
  match fetchResult with
  | .error e => .error e
  | .ok currentPairs =>
    let currentSet : Finset String := currentPairs.toFinset
    let newPairs : List String := currentPairs.dedup.filter fun p =>
      decide (p ∉ lastScanPairs)
    if newPairs.isEmpty then
      .ok ([], lastScanPairs)
    else
      .ok (newPairs.foldl (enrichStep enrich) [], currentSet)

/-- `BaseScanner.scan`: a bare `try/except` around `detect_new_listings` that converts
any exception into the empty list (leaving the stored snapshot as it was). -/
def scan (fetchResult : Except Unit (List String))
    (enrich : String → Except Unit (Option PairDetails))
    (lastScanPairs : Finset String) : List PairDetails × Finset String :=
  match detectNewListings fetchResult enrich lastScanPairs with
  | .ok result => result
  | .error _ => ([], lastScanPairs)

/-- How `MainScanner.run_all_scanners` (lines 58–67) reports one venue in the cycle
summary: a gathered result that is an exception prints as failed, a list prints as a
success with its length. -/
inductive VenueReport where
  | failed
  | success (count : ℕ)
  deriving DecidableEq, Repr

/-- The per-venue branch of `run_all_scanners`: `isinstance(result, Exception)` →
failed, `isinstance(result, list)` → success with the listing count. -/
def venueReport (result : Except Unit (List PairDetails)) : VenueReport :=
  match result with
  | .error _ => .failed
  | .ok listings => .success listings.length

/-! ## Price aggregation (`services/price_aggregator.py`)

`get_all_prices` launches the four venue helpers with `asyncio.gather`, which returns
their results in task order — `Gate.io, MEXC, KuCoin, Binance` — regardless of network
timing; the `prices` dict is filled in that fixed order (lines 59–65), skipping helpers
that produced `None` or an exception.  `best_buy`/`best_sell` are Python
`min`/`max` with a price key (lines 71–72); the profit percentage divides by the best
buy price with no guard (line 75), so a zero best-buy price raises
`ZeroDivisionError` (modelled as the explicit `zeroDivError` outcome) and a negative
one divides normally. -/

/-- A per-venue entry of the `prices` dict: price and 24h volume. -/
structure VQuote where
  price : ℚ
  volume24h : ℚ
  deriving DecidableEq, Repr

/-- Python's `min(items, key=f)`: a left fold that replaces the current best only on a
strictly smaller key, so on ties the earlier item wins. -/
def pyMinBy {α : Type} (f : α → ℚ) : List α → Option α
  | [] => none
  | x :: xs => some (xs.foldl (fun b y => if f y < f b then y else b) x)

/-- Python's `max(items, key=f)`: replaces the current best only on a strictly greater
key, so on ties the earlier item wins. -/
def pyMaxBy {α : Type} (f : α → ℚ) : List α → Option α
  | [] => none
  | x :: xs => some (xs.foldl (fun b y => if f y > f b then y else b) x)

/-- The `prices`-dict compilation loop (lines 59–65) over the gathered results, which
arrive in the fixed task order Gate.io, MEXC, KuCoin, Binance; each helper tags its
result with its own venue-name literal. -/
def compilePrices (gate mexc kucoin binance : Option VQuote) :
    List (String × VQuote) :=
  [("Gate.io", gate), ("MEXC", mexc), ("KuCoin", kucoin), ("Binance", binance)].filterMap
    fun v => v.2.map fun q => (v.1, q)

/-- `round(x, 2)` on exact rationals. -/
def round2 (q : ℚ) : ℚ := (⌊q * 100 + 1/2⌋ : ℚ) / 100

/-- The `arbitrage_opportunity` dict: buy/sell venues, profit percentage rounded to two
decimals, and the `profitable` flag computed from the unrounded percentage against the
hard-coded 1.0% threshold. -/
structure ArbOpp where
  buyOn : String
  sellOn : String
  profitPct : ℚ
  profitable : Bool
  deriving DecidableEq, Repr

/-- Result of `get_all_prices`: the `{'error': 'No prices found'}` dict when no venue
responded, a raised `ZeroDivisionError` escaping the call when the best-buy price is
zero, or the full snapshot dict. -/
inductive AggResult where
  | noQuotes
  | zeroDivError
  | snapshot (prices : List (String × VQuote)) (bestBuy bestSell : String × ℚ)
      (arb : ArbOpp)
  deriving DecidableEq, Repr

/-- `PriceAggregator.get_all_prices`, over the four helpers' outcomes.  The
`if bb.2.price = 0` test embeds Python's `ZeroDivisionError` on line 75; the source has
no such guard, so the zero case is the raised exception, not a return value. -/
def getAllPrices (gate mexc kucoin binance : Option VQuote) : AggResult :=
  let prices := compilePrices gate mexc kucoin binance
  match pyMinBy (fun v => v.2.price) prices, pyMaxBy (fun v => v.2.price) prices with
  | some bb, some bs =>
    if bb.2.price = 0 then .zeroDivError
    else
      let pct := (bs.2.price - bb.2.price) / bb.2.price * 100
      .snapshot prices (bb.1, bb.2.price) (bs.1, bs.2.price)
        ⟨bb.1, bs.1, round2 pct, decide (pct > 1)⟩
  | _, _ => .noQuotes

/-- Modelled from the spec's tie-break words, for comparison with the source's
`min`-based selection (claim C6): of two venues, prefer the strictly lower price, then
the strictly greater 24h volume, then the lexicographically first venue name. -/
def specPreferredBuy (a b : String × VQuote) : String × VQuote :=
  if a.2.price < b.2.price then a
  else if b.2.price < a.2.price then b
  else if a.2.volume24h > b.2.volume24h then a
  else if b.2.volume24h > a.2.volume24h then b
  else if a.1 ≤ b.1 then a else b

/-- Modelled from the spec's words: the best-buy venue selected with the spec's
tie-break chain. -/
def specBestBuy : List (String × VQuote) → Option (String × VQuote)
  | [] => none
  | x :: xs => some (xs.foldl specPreferredBuy x)

/-! ## Gate.io quote fetch (`price_aggregator._get_gateio_price`)

The helper tries `{symbol}_USDT` then `{symbol}_USD`.  For a 200 response it tests
`if not data or not isinstance(data, list)` — and builds the quote dict from `data[0]`
*inside that branch*, i.e. exactly when the body is empty or not a list; a well-formed
non-empty list falls through.  The whole body sits in a bare `try/except` returning
`None`. -/

/-- A decoded JSON value as produced by `response.json()`; object keys are strings. -/
inductive JVal where
  | null
  | bool (b : Bool)
  | num (q : ℚ)
  | str (s : String)
  | arr (elems : List JVal)
  | obj (fields : List (String × JVal))

/-- Python truthiness of a decoded JSON value (`not data`). -/
def JVal.truthy : JVal → Bool
  | .null => false
  | .bool b => b
  | .num q => decide (q ≠ 0)
  | .str s => decide (s ≠ "")
  | .arr xs => !xs.isEmpty
  | .obj fs => !fs.isEmpty

/-- `isinstance(data, list)` on a decoded JSON value. -/
def JVal.isList : JVal → Bool
  | .arr _ => true
  | _ => false

/-- Exceptions raised by the embedded Python fragments. -/
inductive PyErr where
  | indexError
  | keyError
  | typeError
  | attributeError
  deriving DecidableEq, Repr

/-- Python `data[0]` on a decoded JSON value: non-empty list → first element; empty
list or empty string → `IndexError`; non-empty string → its first character as a
one-character string; dict → `KeyError` (decoded JSON objects have only string keys, so
the integer key `0` is never present); number, boolean or `None` → `TypeError`. -/
def JVal.index0 : JVal → Except PyErr JVal
  | .arr [] => .error .indexError
  | .arr (x :: _) => .ok x
  | .str s =>
    match s.data with
    | [] => .error .indexError
    | c :: _ => .ok (.str (String.mk [c]))
  | .obj _ => .error .keyError
  | _ => .error .typeError

/-- Python `x.get(key, default)`: defined on dicts (first matching key, else the
default); on any non-dict value the attribute lookup of `.get` raises. -/
def JVal.pyGet (v : JVal) (key : String) (deflt : JVal) : Except PyErr JVal :=
  match v with
  | .obj fields =>
    .ok (((fields.find? fun kv => decide (kv.1 = key)).map Prod.snd).getD deflt)
  | _ => .error .attributeError

/-- Python `float(x)` on the values reachable at lines 113–114: numbers and booleans
coerce, `None`/list/dict raise `TypeError`.  A string argument is modelled as an error:
`float(data[0].get(...))` could only see a string if `data[0]` succeeded on a string
body, and then `.get` has already raised `AttributeError` (proved below: every
quote-building attempt errors out before reaching `float`), so no reachable execution
applies `float` to a string and its decimal parsing needs no model. -/
def pyFloat : JVal → Except PyErr ℚ
  | .num q => .ok q
  | .bool b => .ok (if b then 1 else 0)
  | _ => .error .typeError

/-- The quote dict construction at lines 111–115, evaluated left to right:
`float(data[0].get('last', 0))` then `float(data[0].get('quote_volume', 0))`; the
`'exchange': 'Gate.io'` tag is a fixed literal. -/
def buildGateQuote (data : JVal) : Except PyErr VQuote := do
  let item ← data.index0
  let lastV ← item.pyGet "last" (.num 0)
  let price ← pyFloat lastV
  let item2 ← data.index0
  let volV ← item2.pyGet "quote_volume" (.num 0)
  let vol ← pyFloat volV
  pure ⟨price, vol⟩

/-- Outcome of one `session.get` for a currency pair: the request itself may raise
(transport failure or timeout), or deliver an HTTP status and a decoded JSON body. -/
inductive FetchOutcome where
  | fail
  | resp (status : ℕ) (body : JVal)

/-- One iteration of the `for pair in pairs_to_try` loop (lines 103–115).  `.error ()`
models an exception escaping the iteration (the surrounding bare `except` turns it into
an overall `None`); `.ok (some q)` a `return` of a built quote; `.ok none` falling
through to the next pair — which is what happens both on a non-200 status and on a
200 response whose body is a truthy list. -/
def gateioOnResponse (out : FetchOutcome) : Except Unit (Option VQuote) :=
  match out with
  | .fail => .error ()
  | .resp status body =>
    if status = 200 then
      if !body.truthy || !body.isList then
        match buildGateQuote body with
        | .ok q => .ok (some q)
        | .error _ => .error ()
      else .ok none
    else .ok none

/-- `_get_gateio_price(symbol)`: try `{symbol}_USDT` then `{symbol}_USD`; any raised
exception is caught by the bare `except` and yields `None`; falling off the loop
yields `None` (line 116). -/
def getGateioPrice (outUSDT outUSD : FetchOutcome) : Option VQuote :=
  match gateioOnResponse outUSDT with
  | .error _ => none
  | .ok (some q) => some q
  | .ok none =>
    match gateioOnResponse outUSD with
    | .error _ => none
    | .ok (some q) => some q
    | .ok none => none

/-- `get_all_prices` with its Gate.io slot produced by the `_get_gateio_price` model
(the other three helpers enter as their already-compiled quote outcomes). -/
def getAllPricesWithGateio (outUSDT outUSD : FetchOutcome)
    (mexc kucoin binance : Option VQuote) : AggResult :=
  getAllPrices (getGateioPrice outUSDT outUSD) mexc kucoin binance

/-- The enrichment loop is the `filterMap` of the per-pair outcomes. -/
theorem foldl_enrichStep (enrich : String → Except Unit (Option PairDetails)) :
    ∀ (l : List String) (acc : List PairDetails),
      l.foldl (enrichStep enrich) acc = acc ++ l.filterMap (enrichResult enrich)
  | [], acc => by simp
  | p :: l, acc => by
    rw [List.foldl_cons, foldl_enrichStep enrich l, List.filterMap_cons]
    cases h : enrich p with
    | error e => simp [enrichStep, enrichResult, h]
    | ok o => cases o <;> simp [enrichStep, enrichResult, h]

/-- Successful truthy enrichment, read off `enrichResult`. -/
theorem enrichResult_eq_some {enrich : String → Except Unit (Option PairDetails)}
    {p : String} {d : PairDetails} :
    enrichResult enrich p = some d ↔ enrich p = .ok (some d) := by
  cases h : enrich p with
  | error e => simp [enrichResult, h]
  | ok o => cases o <;> simp [enrichResult, h]

/-- The fold inside Python's `min(·, key=f)` either keeps the seed (then the seed is a
lower bound) or lands on a list element that strictly improves on the seed, is a lower
bound, and is preceded only by strictly larger keys. -/
theorem pyMinFold_spec {α : Type} (f : α → ℚ) :
    ∀ (xs : List α) (b : α),
      (xs.foldl (fun b y => if f y < f b then y else b) b = b ∧ ∀ y ∈ xs, f b ≤ f y) ∨
      (∃ l₁ m l₂, xs = l₁ ++ m :: l₂ ∧
        xs.foldl (fun b y => if f y < f b then y else b) b = m ∧
        f m < f b ∧ (∀ y ∈ l₁, f m < f y) ∧ (∀ y ∈ xs, f m ≤ f y))
  | [], b => Or.inl ⟨rfl, by simp⟩
  | y :: ys, b => by
    rw [List.foldl_cons]
    by_cases hy : f y < f b
    · rw [if_pos hy]
      rcases pyMinFold_spec f ys y with ⟨heq, hall⟩ |
        ⟨l₁, m, l₂, hsplit, heq, hlt, hpre, hall⟩
      · right
        refine ⟨[], y, ys, by simp, heq, hy, by simp, ?_⟩
        intro z hz
        rcases List.mem_cons.mp hz with rfl | hz
        · exact le_refl _
        · exact hall z hz
      · right
        refine ⟨y :: l₁, m, l₂, by rw [hsplit]; rfl, heq, lt_trans hlt hy, ?_, ?_⟩
        · intro z hz
          rcases List.mem_cons.mp hz with rfl | hz
          · exact hlt
          · exact hpre z hz
        · intro z hz
          rcases List.mem_cons.mp hz with rfl | hz
          · exact le_of_lt hlt
          · exact hall z hz
    · rw [if_neg hy]
      push_neg at hy
      rcases pyMinFold_spec f ys b with ⟨heq, hall⟩ |
        ⟨l₁, m, l₂, hsplit, heq, hlt, hpre, hall⟩
      · left
        refine ⟨heq, ?_⟩
        intro z hz
        rcases List.mem_cons.mp hz with rfl | hz
        · exact hy
        · exact hall z hz
      · right
        refine ⟨y :: l₁, m, l₂, by rw [hsplit]; rfl, heq, hlt, ?_, ?_⟩
        · intro z hz
          rcases List.mem_cons.mp hz with rfl | hz
          · exact lt_of_lt_of_le hlt hy
          · exact hpre z hz
        · intro z hz
          rcases List.mem_cons.mp hz with rfl | hz
          · exact le_of_lt (lt_of_lt_of_le hlt hy)
          · exact hall z hz

/-- Python `min(·, key=f)` returns the *first* element attaining the minimal key. -/
theorem pyMinBy_first_min {α : Type} (f : α → ℚ) (l : List α) (m : α)
    (hm : pyMinBy f l = some m) :
    m ∈ l ∧ (∀ y ∈ l, f m ≤ f y) ∧
      ∃ l₁ l₂, l = l₁ ++ m :: l₂ ∧ ∀ y ∈ l₁, f m < f y := by
  cases l with
  | nil => cases hm
  | cons x xs =>
    rw [pyMinBy, Option.some.injEq] at hm
    rcases pyMinFold_spec f xs x with ⟨heq, hall⟩ |
      ⟨l₁, m', l₂, hsplit, heq, hlt, hpre, hall⟩
    · have hxm : m = x := hm.symm.trans heq
      subst hxm
      refine ⟨List.mem_cons_self _ _, ?_, [], xs, rfl, by simp⟩
      intro y hy
      rcases List.mem_cons.mp hy with rfl | hy
      · exact le_refl _
      · exact hall y hy
    · have hmm : m' = m := heq.symm.trans hm
      subst hmm
      refine ⟨?_, ?_, x :: l₁, l₂, by rw [hsplit]; rfl, ?_⟩
      · exact List.mem_cons.mpr (Or.inr (hsplit ▸ List.mem_append_right l₁
          (List.mem_cons_self _ _)))
      · intro y hy
        rcases List.mem_cons.mp hy with rfl | hy
        · exact le_of_lt hlt
        · exact hall y hy
      · intro y hy
        rcases List.mem_cons.mp hy with rfl | hy
        · exact hlt
        · exact hpre y hy

/-- Python `max(·, key=f)` is `min` under the negated key. -/
theorem pyMaxBy_eq_pyMinBy_neg {α : Type} (f : α → ℚ) (l : List α) :
    pyMaxBy f l = pyMinBy (fun a => -f a) l := by
  cases l with
  | nil => rfl
  | cons x xs =>
    have hfun : (fun (b y : α) => if f y > f b then y else b)
        = fun b y => if -f y < -f b then y else b := by
      funext b y
      by_cases h : f y > f b
      · rw [if_pos h, if_pos (by simpa using h)]
      · rw [if_neg h, if_neg (by simpa using h)]
    simp only [pyMaxBy, pyMinBy, hfun]

/-- Python `max(·, key=f)` returns the *first* element attaining the maximal key. -/
theorem pyMaxBy_first_max {α : Type} (f : α → ℚ) (l : List α) (m : α)
    (hm : pyMaxBy f l = some m) :
    m ∈ l ∧ (∀ y ∈ l, f y ≤ f m) ∧
      ∃ l₁ l₂, l = l₁ ++ m :: l₂ ∧ ∀ y ∈ l₁, f y < f m := by
  rw [pyMaxBy_eq_pyMinBy_neg] at hm
  obtain ⟨h1, h2, l₁, l₂, h3, h4⟩ := pyMinBy_first_min _ l m hm
  exact ⟨h1, fun y hy => neg_le_neg_iff.mp (h2 y hy), l₁, l₂, h3,
    fun y hy => neg_lt_neg_iff.mp (h4 y hy)⟩

/-- Dissection of a successful aggregation: the snapshot's fields in terms of the
Python `min`/`max` selections over the compiled price list, with a nonzero best-buy
price (the zero case raised instead). -/
theorem getAllPrices_snapshot_elim {gate mexc kucoin binance : Option VQuote}
    {ps : List (String × VQuote)} {bb bs : String × ℚ} {arb : ArbOpp}
    (h : getAllPrices gate mexc kucoin binance = .snapshot ps bb bs arb) :
    ∃ m M,
      pyMinBy (fun v => v.2.price) (compilePrices gate mexc kucoin binance) = some m ∧
      pyMaxBy (fun v => v.2.price) (compilePrices gate mexc kucoin binance) = some M ∧
      m.2.price ≠ 0 ∧
      ps = compilePrices gate mexc kucoin binance ∧
      bb = (m.1, m.2.price) ∧ bs = (M.1, M.2.price) ∧
      arb = ⟨m.1, M.1, round2 ((M.2.price - m.2.price) / m.2.price * 100),
        decide ((M.2.price - m.2.price) / m.2.price * 100 > 1)⟩ := by
  unfold getAllPrices at h
  cases hL : compilePrices gate mexc kucoin binance with
  | nil => rw [hL] at h; simp [pyMinBy, pyMaxBy] at h
  | cons x xs =>
    rw [hL] at h
    simp only [pyMinBy, pyMaxBy] at h
    by_cases h0 : (xs.foldl (fun b y => if y.2.price < b.2.price then y else b) x).2.price = 0
    · rw [if_pos h0] at h
      cases h
    · rw [if_neg h0] at h
      obtain ⟨hps, hbb, hbs, harb⟩ := by
        simpa only [AggResult.snapshot.injEq] using h
      exact ⟨_, _, rfl, rfl, h0, hps.symm, hbb.symm, hbs.symm, harb.symm⟩

/-- **C1.** The opportunity classifier is a pure function of the listing's source
exchange, the price snapshot's responding venues and the arbitrage profit percentage:
the type is `PRE_BINANCE_LISTING` exactly when the source venue is in the early set
(Gate.io, MEXC) and Binance is absent from the responding venues, else `ARBITRAGE` when
more than one venue responded, else `BINANCE_LISTING` when the source venue is Binance,
else `NEW_LISTING`; and the urgency is `CRITICAL` when `arbProfitPct > 2.0`, else `HIGH`
when the type is `PRE_BINANCE_LISTING`, else `NORMAL` — the `CRITICAL` overwrite happens
after the `HIGH` assignment, so it takes precedence when both conditions hold. -/
theorem classify_and_urgency_spec (exchange : String) (priceVenues : List String)
    (arbProfitPct : ℚ) :
    classifyOpportunity exchange priceVenues =
      (if (exchange = "Gate.io" ∨ exchange = "MEXC") ∧ "Binance" ∉ priceVenues then
        "PRE_BINANCE_LISTING"
      else if priceVenues.length > 1 then "ARBITRAGE"
      else if exchange = "Binance" then "BINANCE_LISTING"
      else "NEW_LISTING") ∧
    computeUrgency exchange priceVenues arbProfitPct =
      (if arbProfitPct > 2 then "CRITICAL"
       else if classifyOpportunity exchange priceVenues = "PRE_BINANCE_LISTING" then "HIGH"
       else "NORMAL") := by
  refine ⟨rfl, ?_⟩
  unfold computeUrgency classifyOpportunity
  by_cases hpre : (exchange = "Gate.io" ∨ exchange = "MEXC") ∧ "Binance" ∉ priceVenues
  · simp [hpre]
  · simp only [if_neg hpre]
    by_cases hc : arbProfitPct > 2
    · simp [hc]
    · simp only [if_neg hc]
      split_ifs <;> simp_all

/-- **C2 (counterexample).** A detector fresh from construction (`last_scan_pairs`
empty) whose venue fetch returns one instrument reports that instrument as a new
listing: the first call returns one listing, not zero.  `new_pairs = current_set - ∅ =
current_set`, so nothing suppresses the first cycle's output. -/
theorem detect_first_call_cx :
    detectNewListings (.ok ["BTC_USDT"])
      (fun _ => .ok (some ⟨"BTC", "BTC_USDT", 1, 2⟩)) (∅ : Finset String) =
      .ok ([⟨"BTC", "BTC_USDT", 1, 2⟩], {"BTC_USDT"}) ∧
    ([(⟨"BTC", "BTC_USDT", 1, 2⟩ : PairDetails)]).length ≠ 0 :=
  ⟨rfl, by simp⟩

/-- **C2 (amended).** The first call of `detect_new_listings` after construction
(empty previous snapshot) returns every fetched instrument whose enrichment succeeds as
a new listing — the empty set makes all current instruments new — and stores the
fetched set; it returns zero listings exactly when the fetch returned no instruments. -/
theorem detect_first_call_amended (pairs : List String)
    (enrich : String → Except Unit (Option PairDetails)) :
    detectNewListings (.ok pairs) enrich ∅ =
      if pairs.isEmpty then .ok ([], (∅ : Finset String))
      else .ok (pairs.dedup.filterMap (enrichResult enrich), pairs.toFinset) := by
  by_cases hp : pairs = []
  · subst hp; rfl
  · have hne : pairs.dedup ≠ [] := by
      simpa [List.dedup_eq_nil] using hp
    simp only [detectNewListings]
    have hf : (pairs.dedup.filter fun p => decide (p ∉ (∅ : Finset String)))
        = pairs.dedup := by simp
    rw [hf, if_neg (by simpa [List.isEmpty_iff] using hne),
      if_neg (by simpa [List.isEmpty_iff] using hp), foldl_enrichStep]
    simp

/-- **C3 (counterexample).** The snapshot replacement is not unconditional: with
previous snapshot `{A, B}` and a successful fetch returning `[A]`, the new-pair set is
empty, so `detect_new_listings` returns on line 60 *before* the `last_scan_pairs =
current_set` assignment — the stored snapshot stays `{A, B}`, which differs from the
fetched set `{A}`. -/
theorem detect_stale_snapshot_cx :
    detectNewListings (.ok ["A"]) (fun _ => .ok none) ({"A", "B"} : Finset String) =
      .ok ([], {"A", "B"}) ∧ ({"A", "B"} : Finset String) ≠ {"A"} :=
  ⟨rfl, by decide⟩

/-- **C3 (amended).** After a successful fetch returning `current`, the stored snapshot
equals `current` exactly whenever at least one fetched instrument was not previously
tracked — regardless of how many per-instrument enrichments failed; when every fetched
instrument was already tracked, the call returns early and the previous snapshot is
kept unchanged (shown by `detect_stale_snapshot_cx`). -/
theorem detect_updates_snapshot (pairs : List String)
    (enrich : String → Except Unit (Option PairDetails)) (prev : Finset String)
    (h : ∃ p ∈ pairs, p ∉ prev) :
    detectNewListings (.ok pairs) enrich prev =
      .ok ((pairs.dedup.filter fun p => decide (p ∉ prev)).filterMap
        (enrichResult enrich), pairs.toFinset) := by
  obtain ⟨p, hp, hnp⟩ := h
  have hmem : p ∈ pairs.dedup.filter fun q => decide (q ∉ prev) := by
    simp [List.mem_filter, List.mem_dedup, hp, hnp]
  have hne : (pairs.dedup.filter fun q => decide (q ∉ prev)) ≠ [] :=
    fun hnil => by rw [hnil] at hmem; exact List.not_mem_nil p hmem
  simp only [detectNewListings]
  rw [if_neg (by simpa [List.isEmpty_iff] using hne), foldl_enrichStep]
  simp

/-- **C3 (witness).** Previous snapshot `{A}`, fetch returns `[A, B]`, and *every*
enrichment raises: the listing list is empty, yet the snapshot is still replaced by the
fetched set `{A, B}`. -/
theorem detect_updates_snapshot_witness :
    (∃ p ∈ ["A", "B"], p ∉ ({"A"} : Finset String)) ∧
    detectNewListings (.ok ["A", "B"]) (fun _ => .error ()) {"A"} =
      .ok ([], {"A", "B"}) := by
  have h : ∃ p ∈ ["A", "B"], p ∉ ({"A"} : Finset String) := ⟨"B", by simp, by simp⟩
  refine ⟨h, ?_⟩
  rw [detect_updates_snapshot ["A", "B"] (fun _ => .error ()) {"A"} h]
  rfl

/-- **C9.** Per-instrument enrichment failures are isolated: a successful fetch always
yields a successful `detect_new_listings` call (the per-pair `try/except` keeps the
cycle alive), every new instrument whose ticker fetch succeeds with a truthy dict
appears in the returned listings, and every returned listing comes from a successful
enrichment of a new instrument — a single instrument's failure removes only itself. -/
theorem detect_isolates_enrichment_failures (pairs : List String)
    (enrich : String → Except Unit (Option PairDetails)) (prev : Finset String) :
    ∃ listings snap,
      detectNewListings (.ok pairs) enrich prev = .ok (listings, snap) ∧
      (∀ q ∈ pairs, q ∉ prev → ∀ d, enrich q = .ok (some d) → d ∈ listings) ∧
      (∀ d ∈ listings, ∃ q ∈ pairs, q ∉ prev ∧ enrich q = .ok (some d)) := by
  by_cases hemp : (pairs.dedup.filter fun p => decide (p ∉ prev)).isEmpty
  · refine ⟨[], prev, ?_, ?_, by simp⟩
    · simp only [detectNewListings]; rw [if_pos hemp]
    · intro q hq hqp d _
      exfalso
      have hm : q ∈ pairs.dedup.filter fun p => decide (p ∉ prev) := by
        simp [List.mem_filter, List.mem_dedup, hq, hqp]
      rw [List.isEmpty_iff] at hemp
      rw [hemp] at hm
      exact List.not_mem_nil q hm
  · refine ⟨(pairs.dedup.filter fun p => decide (p ∉ prev)).filterMap
      (enrichResult enrich), pairs.toFinset, ?_, ?_, ?_⟩
    · simp only [detectNewListings]; rw [if_neg hemp, foldl_enrichStep]; simp
    · intro q hq hqp d hd
      refine List.mem_filterMap.mpr ⟨q, ?_, enrichResult_eq_some.mpr hd⟩
      simp [List.mem_filter, List.mem_dedup, hq, hqp]
    · intro d hd
      obtain ⟨q, hq, he⟩ := List.mem_filterMap.mp hd
      have hq' := List.mem_filter.mp hq
      exact ⟨q, List.mem_dedup.mp hq'.1, by simpa using hq'.2,
        enrichResult_eq_some.mp he⟩

/-- **C4 (counterexample).** A failed venue fetch does not reach the orchestrator:
`detect_new_listings` does propagate the failure, but `scan` catches every exception
and returns the empty list, so `run_all_scanners` sees a plain list and reports the
venue as a success with zero listings — `success 0`, not `failed`. -/
theorem scan_reports_success_on_fetch_failure_cx :
    detectNewListings (.error ()) (fun _ => .ok none) (∅ : Finset String) = .error () ∧
    scan (.error ()) (fun _ => .ok none) (∅ : Finset String) = ([], ∅) ∧
    venueReport (.ok (scan (.error ()) (fun _ => .ok none) (∅ : Finset String)).1) =
      .success 0 ∧
    VenueReport.success 0 ≠ .failed :=
  ⟨rfl, rfl, rfl, by decide⟩

/-- **C4 (amended).** When a venue's instrument fetch fails, `detect_new_listings`
propagates the failure, but `scan` converts it into an empty listing list (keeping the
previous snapshot); consequently the orchestrator's per-venue summary reports the venue
as a success with zero listings, and no venue whose result came through `scan` is ever
reported as failed — the failure is visible only in the scan's own log line. -/
theorem scan_swallows_fetch_failure (fetchResult : Except Unit (List String))
    (enrich : String → Except Unit (Option PairDetails)) (prev : Finset String) :
    detectNewListings (.error ()) enrich prev = .error () ∧
    scan (.error ()) enrich prev = ([], prev) ∧
    venueReport (.ok (scan (.error ()) enrich prev).1) = .success 0 ∧
    venueReport (.ok (scan fetchResult enrich prev).1) ≠ .failed := by
  refine ⟨rfl, rfl, rfl, ?_⟩
  simp [venueReport]

/-- **C5 (counterexample).** At entry price 10 and tier `CRITICAL` the targets are
15 / 20 / 8.5 as the claim states, but the position size is `'1-2%'` (not the claimed
`'2-3%'`) and the time window is `'24-48 hours'` (not the claimed `'12-24 hours'`):
both ternaries in `_calculate_strategy` test `urgency == 'HIGH'` only, so `CRITICAL`
falls into the `else` arm. -/
theorem calculateStrategy_critical_cx :
    calculateStrategy (some ⟨"Gate.io", 10⟩) "CRITICAL" =
      .strategy ⟨some "Gate.io", 10, 15, 20, 8.5, "1-2%", "24-48 hours"⟩ ∧
    ("1-2%" : String) ≠ "2-3%" ∧ ("24-48 hours" : String) ≠ "12-24 hours" := by
  refine ⟨?_, by decide, by decide⟩
  norm_num [calculateStrategy, round6]
  exact ⟨fun h => absurd h (by decide), fun h => absurd h (by decide)⟩

/-- **C5 (amended).** For every best-buy side with nonzero entry price: tier `CRITICAL`
yields targets ×1.50 / ×2.00 / ×0.85 with position size 1–2% and window 24–48h; `HIGH`
yields ×1.30 / ×1.60 / ×0.90 with 2–3% and 12–24h; every other tier (including
`NORMAL`) yields ×1.20 / ×1.40 / ×0.92 with 1–2% and 24–48h; and a zero or missing
entry price yields the `No valid entry price` error for every tier. -/
theorem calculateStrategy_table (b : BestSide) (u : String) (hb : b.price ≠ 0) :
    calculateStrategy (some b) "CRITICAL" =
      .strategy ⟨some b.exchange, b.price, round6 (b.price * 1.50), round6 (b.price * 2.00),
        round6 (b.price * 0.85), "1-2%", "24-48 hours"⟩ ∧
    calculateStrategy (some b) "HIGH" =
      .strategy ⟨some b.exchange, b.price, round6 (b.price * 1.30), round6 (b.price * 1.60),
        round6 (b.price * 0.90), "2-3%", "12-24 hours"⟩ ∧
    (u ≠ "CRITICAL" → u ≠ "HIGH" → calculateStrategy (some b) u =
      .strategy ⟨some b.exchange, b.price, round6 (b.price * 1.20), round6 (b.price * 1.40),
        round6 (b.price * 0.92), "1-2%", "24-48 hours"⟩) ∧
    calculateStrategy (some ⟨b.exchange, 0⟩) u = .noValidEntry ∧
    calculateStrategy (none : Option BestSide) u = .noValidEntry := by
  refine ⟨?_, ?_, fun h1 h2 => ?_, ?_, ?_⟩
  · simp [calculateStrategy, hb]
  · simp [calculateStrategy, hb]
  · simp [calculateStrategy, hb, h1, h2]
  · simp [calculateStrategy]
  · simp [calculateStrategy]

/-- **C6 (counterexample).** With Gate.io and Binance both quoting 100 but Binance
carrying the strictly greater 24h volume (5 vs 1), the source's `min`/`max` pick
Gate.io — the first venue in the fixed gather order — for both sides, while the spec's
tie-break (greater volume first) picks Binance.  No volume or lexicographic tie-break
exists in `get_all_prices`. -/
theorem aggregator_tiebreak_cx :
    getAllPrices (some ⟨100, 1⟩) none none (some ⟨100, 5⟩) =
      .snapshot [("Gate.io", ⟨100, 1⟩), ("Binance", ⟨100, 5⟩)]
        ("Gate.io", 100) ("Gate.io", 100) ⟨"Gate.io", "Gate.io", 0, false⟩ ∧
    specBestBuy [("Gate.io", ⟨100, 1⟩), ("Binance", ⟨100, 5⟩)] =
      some ("Binance", ⟨100, 5⟩) ∧
    ("Gate.io" : String) ≠ "Binance" := by
  refine ⟨?_, ?_, by decide⟩
  · simp only [getAllPrices, compilePrices, List.filterMap_cons, List.filterMap_nil,
      Option.map_some', Option.map_none', pyMinBy, pyMaxBy, List.foldl_cons,
      List.foldl_nil]
    norm_num [round2]
  · simp only [specBestBuy, List.foldl_cons, List.foldl_nil, specPreferredBuy]
    norm_num

/-- **C6 (amended).** For every snapshot produced by `get_all_prices`, the price list
is the responding venues in the fixed gather order (Gate.io, MEXC, KuCoin, Binance) —
deterministic and independent of response arrival order — and `bestBuy` (resp.
`bestSell`) is the *first* venue in that order attaining the minimal (resp. maximal)
price: a price tie is broken by gather position, with no volume or lexicographic
rule. -/
theorem aggregator_order_tiebreak (gate mexc kucoin binance : Option VQuote)
    (ps : List (String × VQuote)) (bb bs : String × ℚ) (arb : ArbOpp)
    (h : getAllPrices gate mexc kucoin binance = .snapshot ps bb bs arb) :
    ps = compilePrices gate mexc kucoin binance ∧
    (∃ v ∈ ps, v.1 = bb.1 ∧ v.2.price = bb.2 ∧ (∀ w ∈ ps, v.2.price ≤ w.2.price) ∧
      ∃ l₁ l₂, ps = l₁ ++ v :: l₂ ∧ ∀ w ∈ l₁, v.2.price < w.2.price) ∧
    (∃ v ∈ ps, v.1 = bs.1 ∧ v.2.price = bs.2 ∧ (∀ w ∈ ps, w.2.price ≤ v.2.price) ∧
      ∃ l₁ l₂, ps = l₁ ++ v :: l₂ ∧ ∀ w ∈ l₁, w.2.price < v.2.price) := by
  obtain ⟨m, M, hmin, hmax, h0, hps, hbb, hbs, harb⟩ := getAllPrices_snapshot_elim h
  subst hps hbb hbs
  obtain ⟨hm1, hm2, l₁, l₂, hm3, hm4⟩ := pyMinBy_first_min _ _ _ hmin
  obtain ⟨hM1, hM2, L₁, L₂, hM3, hM4⟩ := pyMaxBy_first_max _ _ _ hmax
  exact ⟨rfl, ⟨m, hm1, rfl, rfl, hm2, l₁, l₂, hm3, hm4⟩,
    ⟨M, hM1, rfl, rfl, hM2, L₁, L₂, hM3, hM4⟩⟩

/-- **C6 (witness).** The amended selection evaluated on the tied Gate.io/Binance
input. -/
theorem aggregator_order_tiebreak_witness :
    getAllPrices (some ⟨100, 1⟩) none none (some ⟨100, 5⟩) =
      .snapshot [("Gate.io", ⟨100, 1⟩), ("Binance", ⟨100, 5⟩)]
        ("Gate.io", 100) ("Gate.io", 100) ⟨"Gate.io", "Gate.io", 0, false⟩ ∧
    [("Gate.io", (⟨100, 1⟩ : VQuote)), ("Binance", ⟨100, 5⟩)] =
      compilePrices (some ⟨100, 1⟩) none none (some ⟨100, 5⟩) := by
  have hsnap : getAllPrices (some ⟨100, 1⟩) none none (some ⟨100, 5⟩) =
      .snapshot [("Gate.io", ⟨100, 1⟩), ("Binance", ⟨100, 5⟩)]
        ("Gate.io", 100) ("Gate.io", 100) ⟨"Gate.io", "Gate.io", 0, false⟩ := by
    simp only [getAllPrices, compilePrices, List.filterMap_cons, List.filterMap_nil,
      Option.map_some', Option.map_none', pyMinBy, pyMaxBy, List.foldl_cons,
      List.foldl_nil]
    norm_num [round2]
  exact ⟨hsnap, (aggregator_order_tiebreak _ _ _ _ _ _ _ _ hsnap).1⟩

/-- **C7.** For every snapshot with a positive best-buy price, `profit_pct` is
`(bestSell − bestBuy) / bestBuy × 100` rounded to two decimals, and `profitable` holds
exactly when the *unrounded* percentage exceeds the hard-coded 1.0% threshold; the buy
and sell venues of the arbitrage dict are the best-buy and best-sell venues. -/
theorem arbitrage_formula (gate mexc kucoin binance : Option VQuote)
    (ps : List (String × VQuote)) (bb bs : String × ℚ) (arb : ArbOpp)
    (h : getAllPrices gate mexc kucoin binance = .snapshot ps bb bs arb)
    (hpos : 0 < bb.2) :
    arb.buyOn = bb.1 ∧ arb.sellOn = bs.1 ∧
    arb.profitPct = round2 ((bs.2 - bb.2) / bb.2 * 100) ∧
    (arb.profitable = true ↔ (bs.2 - bb.2) / bb.2 * 100 > 1) := by
  obtain ⟨m, M, hmin, hmax, h0, hps, hbb, hbs, harb⟩ := getAllPrices_snapshot_elim h
  subst hbb hbs harb
  exact ⟨rfl, rfl, rfl, by simp⟩

/-- **C7 (witness).** The spec's worked example: quotes 100 (MEXC) and 102 (KuCoin)
give best buy MEXC, best sell KuCoin, `profit_pct = 2.00`, `profitable = true`. -/
theorem arbitrage_formula_witness :
    getAllPrices none (some ⟨100, 3⟩) (some ⟨102, 4⟩) none =
      .snapshot [("MEXC", ⟨100, 3⟩), ("KuCoin", ⟨102, 4⟩)] ("MEXC", 100) ("KuCoin", 102)
        ⟨"MEXC", "KuCoin", 2, true⟩ ∧
    (0 : ℚ) < 100 ∧
    ((⟨"MEXC", "KuCoin", 2, true⟩ : ArbOpp).profitable = true ↔
      ((102 : ℚ) - 100) / 100 * 100 > 1) := by
  have hsnap : getAllPrices none (some ⟨100, 3⟩) (some ⟨102, 4⟩) none =
      .snapshot [("MEXC", ⟨100, 3⟩), ("KuCoin", ⟨102, 4⟩)] ("MEXC", 100) ("KuCoin", 102)
        ⟨"MEXC", "KuCoin", 2, true⟩ := by
    simp only [getAllPrices, compilePrices, List.filterMap_cons, List.filterMap_nil,
      Option.map_some', Option.map_none', pyMinBy, pyMaxBy, List.foldl_cons,
      List.foldl_nil]
    norm_num [round2]
  exact ⟨hsnap, by norm_num,
    (arbitrage_formula none (some ⟨100, 3⟩) (some ⟨102, 4⟩) none _ _ _ _ hsnap
      (by norm_num)).2.2.2⟩

/-- **C8 (counterexample).** A responding venue with price 0 does *not* yield the
no-quotes outcome: the unguarded division on line 75 raises `ZeroDivisionError`
(`zeroDivError` in the model).  A negative best-buy price is not guarded either: the
division proceeds and a snapshot is returned. -/
theorem aggregator_zero_price_cx :
    getAllPrices none (some ⟨0, 5⟩) none none = .zeroDivError ∧
    AggResult.zeroDivError ≠ .noQuotes ∧
    getAllPrices none (some ⟨-1, 5⟩) none none =
      .snapshot [("MEXC", ⟨-1, 5⟩)] ("MEXC", -1) ("MEXC", -1)
        ⟨"MEXC", "MEXC", 0, false⟩ ∧
    AggResult.snapshot [("MEXC", ⟨-1, 5⟩)] ("MEXC", -1) ("MEXC", -1)
        ⟨"MEXC", "MEXC", 0, false⟩ ≠ .noQuotes := by
  refine ⟨rfl, by simp, ?_, by simp⟩
  simp only [getAllPrices, compilePrices, List.filterMap_cons, List.filterMap_nil,
    Option.map_some', Option.map_none', pyMinBy, pyMaxBy, List.foldl_cons,
    List.foldl_nil]
  norm_num [round2]

/-- **C8 (amended).** `get_all_prices` returns the no-quotes outcome exactly when no
venue responded; when the responding set is non-empty, a zero best-buy price makes the
unguarded division raise `ZeroDivisionError` (never `NoQuotes`), and any nonzero —
including negative — best-buy price produces a snapshot. -/
theorem noQuotes_iff_no_responders (gate mexc kucoin binance : Option VQuote) :
    (getAllPrices gate mexc kucoin binance = .noQuotes ↔
      compilePrices gate mexc kucoin binance = []) ∧
    ∀ m, pyMinBy (fun v => v.2.price) (compilePrices gate mexc kucoin binance)
        = some m →
      (m.2.price = 0 → getAllPrices gate mexc kucoin binance = .zeroDivError) ∧
      (m.2.price ≠ 0 → ∃ ps bb bs arb,
        getAllPrices gate mexc kucoin binance = .snapshot ps bb bs arb) := by
  cases hL : compilePrices gate mexc kucoin binance with
  | nil =>
    have hnq : getAllPrices gate mexc kucoin binance = .noQuotes := by
      simp only [getAllPrices]
      rw [hL]
      rfl
    refine ⟨⟨fun _ => rfl, fun _ => hnq⟩, ?_⟩
    intro m hm
    cases hm
  | cons x xs =>
    constructor
    · constructor
      · intro hnq
        exfalso
        simp only [getAllPrices] at hnq
        rw [hL] at hnq
        simp only [pyMinBy, pyMaxBy] at hnq
        by_cases h0 :
            (xs.foldl (fun b y => if y.2.price < b.2.price then y else b) x).2.price = 0
        · rw [if_pos h0] at hnq; cases hnq
        · rw [if_neg h0] at hnq; cases hnq
      · intro hx; cases hx
    · intro m hm
      have hmeq : xs.foldl (fun b y => if y.2.price < b.2.price then y else b) x = m := by
        rw [pyMinBy, Option.some.injEq] at hm
        exact hm
      constructor
      · intro h0
        simp only [getAllPrices]
        rw [hL]
        simp only [pyMinBy, pyMaxBy]
        rw [hmeq, if_pos h0]
      · intro h0
        simp only [getAllPrices]
        rw [hL]
        simp only [pyMinBy, pyMaxBy]
        rw [hmeq, if_neg h0]
        exact ⟨_, _, _, _, rfl⟩

/-- **C5 (witness).** The amended table evaluated at entry price 10, tier `NORMAL`. -/
theorem calculateStrategy_table_witness :
    (⟨"MEXC", (10 : ℚ)⟩ : BestSide).price ≠ 0 ∧
    calculateStrategy (some ⟨"MEXC", 10⟩) "NORMAL" =
      .strategy ⟨some "MEXC", 10, 12, 14, 9.2, "1-2%", "24-48 hours"⟩ := by
  refine ⟨by norm_num, ?_⟩
  have h := (calculateStrategy_table ⟨"MEXC", 10⟩ "NORMAL" (by norm_num)).2.2.1
    (by decide) (by decide)
  rw [h]
  norm_num [round6]

/-- Whenever the quote-building branch of `_get_gateio_price` is entered — i.e. the
200-status body is empty or not a list — the `data[0]` access chain raises: `data[0]`
itself errors on `None`/number/boolean/dict/empty string/empty list, and on a non-empty
string the subsequent `.get` has no target attribute. -/
theorem buildGateQuote_errors (body : JVal)
    (hb : ¬(body.truthy = true ∧ body.isList = true)) :
    ∃ e, buildGateQuote body = .error e := by
  cases body with
  | null => exact ⟨.typeError, rfl⟩
  | bool b => exact ⟨.typeError, rfl⟩
  | num q => exact ⟨.typeError, rfl⟩
  | str s =>
    cases hs : s.data with
    | nil =>
      refine ⟨.indexError, ?_⟩
      simp [buildGateQuote, JVal.index0, hs, Bind.bind, Except.bind]
    | cons c cs =>
      refine ⟨.attributeError, ?_⟩
      simp [buildGateQuote, JVal.index0, hs, JVal.pyGet, Bind.bind, Except.bind]
  | arr elems =>
    cases elems with
    | nil => exact ⟨.indexError, rfl⟩
    | cons x xs =>
      exact absurd ⟨by simp [JVal.truthy], rfl⟩ hb
  | obj fields => exact ⟨.keyError, rfl⟩

/-- Each loop iteration of `_get_gateio_price` either raises (converted to `None` by
the bare `except`) or falls through to the next pair: no iteration ever returns a
quote. -/
theorem gateioOnResponse_no_quote (out : FetchOutcome) :
    gateioOnResponse out = .error () ∨ gateioOnResponse out = .ok none := by
  cases out with
  | fail => exact Or.inl rfl
  | resp status body =>
    by_cases hst : status = 200
    · subst hst
      cases hcond : (!body.truthy || !body.isList) with
      | true =>
        have hb : ¬(body.truthy = true ∧ body.isList = true) := by
          rintro ⟨h1, h2⟩
          rw [h1, h2] at hcond
          simp at hcond
        obtain ⟨e, he⟩ := buildGateQuote_errors body hb
        left
        simp [gateioOnResponse, hcond, he]
      | false =>
        right
        simp [gateioOnResponse, hcond]
    · right
      simp [gateioOnResponse, hst]

/-- `_get_gateio_price` returns `None` on every pair of fetch outcomes. -/
theorem getGateioPrice_none (o1 o2 : FetchOutcome) : getGateioPrice o1 o2 = none := by
  unfold getGateioPrice
  rcases gateioOnResponse_no_quote o1 with h1 | h1
  · rw [h1]
  · rw [h1]
    rcases gateioOnResponse_no_quote o2 with h2 | h2 <;> rw [h2]

/-- With an empty Gate.io slot, the compiled price list never carries a `Gate.io`
key. -/
theorem gateio_absent_from_compiled (mexc kucoin binance : Option VQuote) :
    "Gate.io" ∉ (compilePrices none mexc kucoin binance).map Prod.fst := by
  cases mexc <;> cases kucoin <;> cases binance <;> simp [compilePrices]

/-- **C10.** For every Gate.io ticker response with HTTP status 200 and the documented
well-formed body (a non-empty JSON list), `_get_gateio_price`'s quote-building branch
is *not* entered (the iteration falls through) — the branch is entered only when the
body is empty or not a list, and there the `data[0]` access raises an exception that
the bare `except` converts to `None`.  Consequently the fetch returns `None` on all
inputs, and no snapshot produced by `get_all_prices` ever contains a `Gate.io`
entry. -/
theorem gateio_never_in_snapshot :
    (∀ o1 o2 : FetchOutcome, getGateioPrice o1 o2 = none) ∧
    (∀ body : JVal, body.truthy = true → body.isList = true →
      gateioOnResponse (.resp 200 body) = .ok none) ∧
    (∀ body : JVal, ¬(body.truthy = true ∧ body.isList = true) →
      ∃ e, buildGateQuote body = .error e ∧
        gateioOnResponse (.resp 200 body) = .error ()) ∧
    (∀ (o1 o2 : FetchOutcome) (mexc kucoin binance : Option VQuote)
      (ps : List (String × VQuote)) (bb bs : String × ℚ) (arb : ArbOpp),
      getAllPricesWithGateio o1 o2 mexc kucoin binance = .snapshot ps bb bs arb →
      "Gate.io" ∉ ps.map Prod.fst) := by
  refine ⟨getGateioPrice_none, ?_, ?_, ?_⟩
  · intro body ht hl
    simp [gateioOnResponse, ht, hl]
  · intro body hb
    obtain ⟨e, he⟩ := buildGateQuote_errors body hb
    have hcond : (!body.truthy || !body.isList) = true := by
      cases ht : body.truthy <;> cases hl : body.isList <;> simp_all
    exact ⟨e, he, by simp [gateioOnResponse, hcond, he]⟩
  · intro o1 o2 mexc kucoin binance ps bb bs arb h
    unfold getAllPricesWithGateio at h
    rw [getGateioPrice_none] at h
    obtain ⟨m, M, hmin, hmax, h0, hps, hbb, hbs, harb⟩ := getAllPrices_snapshot_elim h
    subst hps
    exact gateio_absent_from_compiled mexc kucoin binance

end TokenScope
